import Mathlib

/-!
Verification of the real-time audio pipeline of the Omni-AI live voice client.

The model below is a shallow embedding of:
  * `playAudio` and `stopSession` from `src/components/LiveInterface.tsx`
  * `LiveSession` (connect callbacks, `sendAudio`, `disconnect`) from the
    Gemini service module concatenated into `src/constants.ts`
  * the PCM/base64 codec of `services/audioUtils.ts`, which is not present
    in the source tree and is therefore modelled from the specification.

Times and durations on the output clock are modelled as rationals, decoded
buffers by their durations, and the browser audio graph by explicit state
records plus traces of the commands issued to the platform.
-/

namespace OmniAI

/-! ## PCM / base64 codec

`services/audioUtils.ts` is imported by every consumer
(`arrayBufferToBase64`, `b64ToUint8Array`, `convertFloat32ToInt16`,
`decodeAudioData`) but its source is not in the tree, so the codec is
modelled from the specification (§4.1).  Bytes are naturals below 256,
base64 text is a list of characters over the standard alphabet with
`'='` padding. -/

/-- Modelled from the spec: the standard base64 alphabet used by
`bytesToBase64` / `base64ToBytes` (`audioUtils.ts` is absent from src). -/
def b64Chars : List Char :=
  "ABCDEFGHIJKLMNOPQRSTUVWXYZabcdefghijklmnopqrstuvwxyz0123456789+/".toList

/-- Modelled from the spec: the character encoding a 6-bit group. -/
def sextetToChar (n : Nat) : Char := b64Chars.getD n '='

/-- Modelled from the spec: the 6-bit value of a base64 character. -/
def charToSextet (c : Char) : Nat := b64Chars.indexOf c

/-- Modelled from the spec: `bytesToBase64` (the encoder named
`arrayBufferToBase64` on the outbound path), standard base64 with
padding. -/
def bytesToBase64 : List Nat → List Char
  | [] => []
  | [x] => [sextetToChar (x / 4), sextetToChar (x % 4 * 16), '=', '=']
  | [x, y] => [sextetToChar (x / 4), sextetToChar (x % 4 * 16 + y / 16), sextetToChar (y % 16 * 4), '=']
  | x :: y :: z :: rest =>
    sextetToChar (x / 4) :: sextetToChar (x % 4 * 16 + y / 16) ::
      sextetToChar (y % 16 * 4 + z / 64) :: sextetToChar (z % 64) :: bytesToBase64 rest

/-- Modelled from the spec: `base64ToBytes` (the decoder named
`b64ToUint8Array` on the inbound path), standard base64 decoding with
padding. -/
def base64ToBytes : List Char → List Nat
  | a :: b :: c :: d :: rest =>
    let s1 := charToSextet a
    let s2 := charToSextet b
    if c = '=' then [s1 * 4 + s2 / 16]
    else
      let s3 := charToSextet c
      if d = '=' then [s1 * 4 + s2 / 16, (s2 % 16 * 16 + s3 / 4)]
      else
        let s4 := charToSextet d
        (s1 * 4 + s2 / 16) :: (s2 % 16 * 16 + s3 / 4) :: (s3 % 4 * 64 + s4) :: base64ToBytes rest
  | _ => []

/-- Modelled from the spec: one sample of `convertFloat32ToInt16` — clamp
to `[-1, 1]`, scale by 32767 (negative samples by 32768), round to the
nearest integer. -/
def sampleToInt16 (s : ℚ) : ℤ :=
  let c := max (-1) (min 1 s)
  if c < 0 then round (c * 32768) else round (c * 32767)

/-- Modelled from the spec: `convertFloat32ToInt16` over a sample frame. -/
def convertFloat32ToInt16 (frame : List ℚ) : List ℤ :=
  frame.map sampleToInt16

/-- Little-endian byte serialisation of a 16-bit signed sample, as
produced by viewing the `Int16Array` buffer as a `Uint8Array`. -/
def int16ToBytesLE (v : ℤ) : List Nat :=
  let u := (v % 65536).toNat
  [u % 256, u / 256]

/-- The outbound encoding applied by `LiveSession.sendAudio` to one
capture frame: float samples → 16-bit little-endian PCM → base64 text. -/
def encodeFrame (frame : List ℚ) : List Char :=
  bytesToBase64 ((convertFloat32ToInt16 frame).flatMap int16ToBytesLE)

/-! ## Scheduler / live interface state (from `src/components/LiveInterface.tsx`)

`LiveState` collects the refs held by the `LiveInterface` component:
`streamRef` (microphone tracks, `true` = live), `processorRef`
(`true` = connected), `inputCtxRef` / `outputCtxRef` (`some true` = open
context, `some false` = closed context, `none` = ref never set),
`session` (`some true` = remote live connection open), together with the
playback cursor `nextStartTimeRef` and the list of `(start, duration)`
pairs passed to `source.start` on the output context, in issue order. -/

structure LiveState where
  stream : Option (List Bool)
  processor : Option Bool
  inputCtx : Option Bool
  outputCtx : Option Bool
  session : Option Bool
  nextStartTime : ℚ
  scheduled : List (ℚ × ℚ)
  deriving Repr, DecidableEq

/-- One invocation of `playAudio` (LiveInterface.tsx lines 55–66) on an
inbound chunk. `now` is the output clock's `currentTime` observed during the
invocation; `decoded` is the result of `decodeAudioData`: `some d` is a
buffer of duration `d`, `none` a decode failure (the awaited promise
rejects, so the statements after the `await` never run).  The code:
guard on `outputCtxRef.current` being non-null (nothing else — in
particular there is no session-active flag and no check that the context
is still open), then `nextStartTime := max nextStartTime currentTime`,
then decode, then `source.start nextStartTime` and
`nextStartTime += buffer.duration`. -/
def playAudio (st : LiveState) (now : ℚ) (decoded : Option ℚ) : LiveState :=
  match st.outputCtx with
  | none => st
  | some _ =>
    let ns := max st.nextStartTime now
    match decoded with
    | none => { st with nextStartTime := ns }
    | some d =>
      { st with
        nextStartTime := ns + d
        scheduled := st.scheduled ++ [(ns, d)] }

/-- A run of the inbound-chunk handler over a list of `(now, decoded)`
events, in arrival order. -/
def runSched (st : LiveState) : List (ℚ × Option ℚ) → LiveState
  | [] => st
  | (now, dec) :: rest => runSched (playAudio st now dec) rest

/-- Gapless chain property of a schedule: every buffer after the first
starts exactly when its predecessor ends. -/
def gaplessB : List (ℚ × ℚ) → Bool
  | (t1, d1) :: (t2, d2) :: rest => (t2 == t1 + d1) && gaplessB ((t2, d2) :: rest)
  | _ => true

/-- The cursor sits exactly at the end of the last scheduled buffer
(vacuously true when nothing is scheduled yet). -/
def tightB (st : LiveState) : Bool :=
  match st.scheduled.getLast? with
  | none => true
  | some (t, d) => st.nextStartTime == t + d

/-- A run is stall-free when every chunk that has a scheduled predecessor
begins processing no later than the moment the cursor points at, i.e.
before the previously scheduled buffer finishes playing. -/
def noStallB (st : LiveState) : List (ℚ × Option ℚ) → Bool
  | [] => true
  | (now, dec) :: rest =>
    (st.scheduled.isEmpty || decide (now ≤ st.nextStartTime)) &&
      noStallB (playAudio st now dec) rest

/-! ## Teardown (from `stopSession`, LiveInterface.tsx lines 68–74)

`stopSession` issues platform calls whose effects we record as events:
`trackStopped` (a live microphone track transitions to ended — repeating
`stop()` on an ended track is a platform no-op), `procDisconnected`
(`disconnect()` drops existing outgoing connections, a no-op when none
remain), `inputCtxClosed` / `outputCtxClosed` (an open `AudioContext`
transitions to closed), `closeRejected` (`close()` on an already-closed
context returns a rejected promise — an asynchronous `InvalidStateError`,
not a synchronous throw; the code ignores the returned promise), and
`sessionClosed` (the remote live connection actually closed — never
emitted, because `LiveSession.disconnect` has an empty body).  The code
never clears any of the refs, so a second call re-issues the calls. -/

inductive TearEv
  | trackStopped
  | procDisconnected
  | inputCtxClosed
  | outputCtxClosed
  | closeRejected
  | sessionClosed
  deriving Repr, DecidableEq

/-- One invocation of `stopSession`: guarded calls on each ref in source
order; state records the platform objects afterwards, the event list the
effects of the calls issued. -/
def stopSession (st : LiveState) : LiveState × List TearEv :=
  let streamEv := match st.stream with
    | none => ([], none)
    | some ts => (((ts.filter id).map fun _ => TearEv.trackStopped), some (ts.map fun _ => false))
  let procEv := match st.processor with
    | none => ([], none)
    | some c => ((if c then [TearEv.procDisconnected] else []), some false)
  let inEv := match st.inputCtx with
    | none => ([], none)
    | some o => ((if o then [TearEv.inputCtxClosed] else [TearEv.closeRejected]), some false)
  let outEv := match st.outputCtx with
    | none => ([], none)
    | some o => ((if o then [TearEv.outputCtxClosed] else [TearEv.closeRejected]), some false)
  -- `sessionRef.current?.disconnect()`: the body of `LiveSession.disconnect`
  -- is empty, so no event is issued and the remote connection is untouched.
  ({ st with
      stream := streamEv.2
      processor := procEv.2
      inputCtx := inEv.2
      outputCtx := outEv.2 },
    streamEv.1 ++ procEv.1 ++ inEv.1 ++ outEv.1)

/-- The state of a fully started live session: microphone stream with one
live track, connected processor node, both audio contexts open, remote
session open, cursor at 0, nothing scheduled yet. -/
def activeState : LiveState :=
  { stream := some [true], processor := some true, inputCtx := some true,
    outputCtx := some true, session := some true,
    nextStartTime := 0, scheduled := [] }

/-- A session that has played one 1-second chunk to completion: the cursor
sits at `1` while the output clock has moved past it. -/
def stallState : LiveState :=
  { stream := some [true], processor := some true, inputCtx := some true,
    outputCtx := some true, session := some true,
    nextStartTime := 1, scheduled := [(0, 1)] }

/-! ## LiveSession (from the Gemini service module in `src/constants.ts`)

State of one `LiveSession` object: `sessionPromise` (set by `connect`,
`none` before), and the trace of base64 payloads handed to
`session.sendRealtimeInput`, in issue order. -/

structure GSession where
  sessionPromise : Option Unit
  sent : List (List Char)
  deriving Repr, DecidableEq

/-- `LiveSession.connect`: assigns `sessionPromise`. -/
def connect (s : GSession) : GSession :=
  { s with sessionPromise := some () }

/-- `LiveSession.sendAudio` (constants.ts lines 253–266): return
immediately when `sessionPromise` is null, otherwise encode the frame
(`convertFloat32ToInt16`, view as bytes, `arrayBufferToBase64`) and hand
it to `sendRealtimeInput`. -/
def sendAudio (s : GSession) (frame : List ℚ) : GSession :=
  match s.sessionPromise with
  | none => s
  | some _ => { s with sent := s.sent ++ [encodeFrame frame] }

/-- The capture pipeline: `onaudioprocess` passes each frame to
`sendAudio` in capture order. -/
def runSend (s : GSession) : List (List ℚ) → GSession
  | [] => s
  | f :: fs => runSend (sendAudio s f) fs

/-- Callback invocations made by the `LiveSession` connect-time handlers. -/
inductive CbInvocation
  | onAudioData (d : List Char)
  | onCloseCb
  deriving Repr, DecidableEq

/-- Events the remote transport can deliver to the handlers registered in
`LiveSession.connect` (constants.ts lines 228–241). -/
inductive RemoteEv
  | message (audio : Option (List Char))
  | closed
  | errored
  deriving Repr, DecidableEq

/-- The connect-time callbacks: `onmessage` forwards inbound audio to
`onAudioData` when present, `onclose` invokes `onClose`, `onerror` only
logs. -/
def handleRemoteEv : RemoteEv → List CbInvocation
  | .message (some d) => [.onAudioData d]
  | .message none => []
  | .closed => [.onCloseCb]
  | .errored => []

/-- Commands a `LiveSession` could issue against the remote connection. -/
inductive RemoteCmd
  | closeConnection
  deriving Repr, DecidableEq

/-- `LiveSession.disconnect` (constants.ts lines 268–272): the guard
`if (this.sessionPromise)` encloses an empty body (a comment
"close logic if available"), so no state changes and no command is issued. -/
def disconnect (s : GSession) : GSession × List RemoteCmd :=
  match s.sessionPromise with
  | some _ => (s, [])
  | none => (s, [])

/-! ## Codec lemmas -/

theorem charToSextet_sextetToChar {n : Nat} (hn : n < 64) :
    charToSextet (sextetToChar n) = n := by
  have h : ∀ m : Fin 64, charToSextet (sextetToChar m.val) = m.val := by decide
  exact h ⟨n, hn⟩

theorem sextetToChar_ne_pad {n : Nat} (hn : n < 64) : sextetToChar n ≠ '=' := by
  have h : ∀ m : Fin 64, sextetToChar m.val ≠ '=' := by decide
  exact h ⟨n, hn⟩

theorem base64ToBytes_block (a b c d : Char) (rest : List Char)
    (hc : c ≠ '=') (hd : d ≠ '=') :
    base64ToBytes (a :: b :: c :: d :: rest) =
      (charToSextet a * 4 + charToSextet b / 16) ::
        (charToSextet b % 16 * 16 + charToSextet c / 4) ::
        (charToSextet c % 4 * 64 + charToSextet d) :: base64ToBytes rest := by
  simp [base64ToBytes, hc, hd]

/-- C8: Base64 round trip — for every byte buffer `b`,
`base64ToBytes (bytesToBase64 b) = b`, where `bytesToBase64` is the
encoder of the outbound path (`arrayBufferToBase64`) and `base64ToBytes`
the decoder of the inbound path (`b64ToUint8Array`), both modelled from
the specification since `audioUtils.ts` is absent from the tree. -/
theorem base64_roundtrip : ∀ l : List Nat, (∀ b ∈ l, b < 256) →
    base64ToBytes (bytesToBase64 l) = l
  | [], _ => by simp [bytesToBase64, base64ToBytes]
  | [x], h => by
    have hx : x < 256 := h x (by simp)
    rw [show bytesToBase64 [x] =
      [sextetToChar (x / 4), sextetToChar (x % 4 * 16), '=', '='] from rfl]
    rw [show base64ToBytes [sextetToChar (x / 4), sextetToChar (x % 4 * 16), '=', '='] =
      [charToSextet (sextetToChar (x / 4)) * 4 +
        charToSextet (sextetToChar (x % 4 * 16)) / 16] from rfl]
    rw [charToSextet_sextetToChar (by omega), charToSextet_sextetToChar (by omega)]
    congr 1
    omega
  | [x, y], h => by
    have hx : x < 256 := h x (by simp)
    have hy : y < 256 := h y (by simp)
    have hne : sextetToChar (y % 16 * 4) ≠ '=' := sextetToChar_ne_pad (by omega)
    show base64ToBytes (sextetToChar (x / 4) :: sextetToChar (x % 4 * 16 + y / 16) ::
      sextetToChar (y % 16 * 4) :: '=' :: []) = [x, y]
    rw [show base64ToBytes (sextetToChar (x / 4) :: sextetToChar (x % 4 * 16 + y / 16) ::
        sextetToChar (y % 16 * 4) :: '=' :: []) =
        if sextetToChar (y % 16 * 4) = '=' then
          [charToSextet (sextetToChar (x / 4)) * 4 +
            charToSextet (sextetToChar (x % 4 * 16 + y / 16)) / 16]
        else
          [charToSextet (sextetToChar (x / 4)) * 4 +
            charToSextet (sextetToChar (x % 4 * 16 + y / 16)) / 16,
           charToSextet (sextetToChar (x % 4 * 16 + y / 16)) % 16 * 16 +
            charToSextet (sextetToChar (y % 16 * 4)) / 4]
        from rfl]
    rw [if_neg hne]
    rw [charToSextet_sextetToChar (by omega), charToSextet_sextetToChar (by omega),
        charToSextet_sextetToChar (by omega)]
    congr 1
    · omega
    congr 1
    omega
  | x :: y :: z :: rest', h => by
    have hx : x < 256 := h x (by simp)
    have hy : y < 256 := h y (by simp)
    have hz : z < 256 := h z (by simp)
    have hne3 : sextetToChar (y % 16 * 4 + z / 64) ≠ '=' := sextetToChar_ne_pad (by omega)
    have hne4 : sextetToChar (z % 64) ≠ '=' := sextetToChar_ne_pad (by omega)
    have ih := base64_roundtrip rest' (fun b hb => h b (by simp [hb]))
    rw [show bytesToBase64 (x :: y :: z :: rest') =
        sextetToChar (x / 4) :: sextetToChar (x % 4 * 16 + y / 16) ::
          sextetToChar (y % 16 * 4 + z / 64) :: sextetToChar (z % 64) ::
          bytesToBase64 rest' from by cases rest' <;> rfl]
    rw [base64ToBytes_block _ _ _ _ _ hne3 hne4, ih]
    rw [charToSextet_sextetToChar (by omega), charToSextet_sextetToChar (by omega),
        charToSextet_sextetToChar (by omega), charToSextet_sextetToChar (by omega)]
    congr 1
    · omega
    congr 1
    · omega
    congr 1
    omega

/-- C8 witness: the round trip evaluated on the concrete buffer
`[72, 105, 33, 255]`. -/
theorem base64_roundtrip_witness :
    (∀ b ∈ [72, 105, 33, 255], b < 256) ∧
      base64ToBytes (bytesToBase64 [72, 105, 33, 255]) = [72, 105, 33, 255] :=
  ⟨by decide, base64_roundtrip [72, 105, 33, 255] (by decide)⟩

/-! ## Scheduler lemmas -/

theorem gaplessB_concat : ∀ (l : List (ℚ × ℚ)) (t d : ℚ),
    gaplessB (l ++ [(t, d)]) =
      (gaplessB l && (match l.getLast? with
        | none => true
        | some (t0, d0) => t == t0 + d0))
  | [], t, d => by simp [gaplessB]
  | [(t1, d1)], t, d => by simp [gaplessB, List.getLast?]
  | (t1, d1) :: (t2, d2) :: rest, t, d => by
    have ih := gaplessB_concat ((t2, d2) :: rest) t d
    simp only [List.cons_append] at ih ⊢
    rw [show gaplessB ((t1, d1) :: (t2, d2) :: (rest ++ [(t, d)])) =
      ((t2 == t1 + d1) && gaplessB ((t2, d2) :: (rest ++ [(t, d)]))) from rfl]
    rw [ih]
    rw [show gaplessB ((t1, d1) :: (t2, d2) :: rest) =
      ((t2 == t1 + d1) && gaplessB ((t2, d2) :: rest)) from rfl]
    rw [List.getLast?_cons_cons]
    rw [Bool.and_assoc]

/-- Invariant preservation: a stall-free run of the inbound handler keeps
the schedule gapless and the cursor exactly at the end of the last
scheduled buffer. -/
theorem sched_invariant : ∀ (cs : List (ℚ × Option ℚ)) (st : LiveState),
    gaplessB st.scheduled = true → tightB st = true → noStallB st cs = true →
    gaplessB (runSched st cs).scheduled = true ∧ tightB (runSched st cs) = true
  | [], st, hg, ht, _ => ⟨hg, ht⟩
  | (now, dec) :: rest, st, hg, ht, hns => by
    rw [noStallB, Bool.and_eq_true] at hns
    obtain ⟨hcond, hns'⟩ := hns
    rw [runSched]
    refine sched_invariant rest (playAudio st now dec) ?_ ?_ hns'
    · match hctx : st.outputCtx, dec with
      | none, _ => simpa [playAudio, hctx] using hg
      | some b, none => simpa [playAudio, hctx] using hg
      | some b, some d =>
        rw [playAudio, hctx]
        simp only [gaplessB_concat, Bool.and_eq_true]
        refine ⟨hg, ?_⟩
        match hsch : st.scheduled.getLast? with
        | none => simp
        | some (t0, d0) =>
          have hne : st.scheduled ≠ [] := by
            intro hemp; rw [hemp] at hsch; simp [List.getLast?] at hsch
          have hle : now ≤ st.nextStartTime := by
            rcases Bool.or_eq_true _ _ |>.mp hcond with h | h
            · exact absurd (List.isEmpty_iff.mp h) hne
            · exact of_decide_eq_true h
          have hcur : st.nextStartTime = t0 + d0 := by
            rw [tightB, hsch] at ht
            exact eq_of_beq ht
          simp only [beq_iff_eq]
          rw [max_eq_left hle, hcur]
    · match hctx : st.outputCtx, dec with
      | none, _ => simpa [playAudio, hctx] using ht
      | some b, none =>
        rw [playAudio, hctx]
        rw [tightB] at ht ⊢
        simp only
        match hsch : st.scheduled.getLast? with
        | none => simp
        | some (t0, d0) =>
          rw [hsch] at ht
          have hcur : st.nextStartTime = t0 + d0 := eq_of_beq ht
          have hne : st.scheduled ≠ [] := by
            intro hemp; rw [hemp] at hsch; simp [List.getLast?] at hsch
          have hle : now ≤ st.nextStartTime := by
            rcases Bool.or_eq_true _ _ |>.mp hcond with h | h
            · exact absurd (List.isEmpty_iff.mp h) hne
            · exact of_decide_eq_true h
          simp only [beq_iff_eq]
          rw [max_eq_left hle, hcur]
      | some b, some d =>
        rw [playAudio, hctx, tightB]
        simp only [List.getLast?_concat]
        simp

/-- C1: Gapless scheduling — for a sequence of inbound chunks whose
decoded buffers have durations `d1..dn`, with each chunk's processing
beginning before the previously scheduled buffer finishes playing
(`noStallB`), `playAudio` assigns consecutive start times: any two
consecutive scheduled buffers satisfy `t2 = t1 + d1`, with no gap and no
overlap. -/
theorem gapless_scheduling (st : LiveState) (chunks : List (ℚ × ℚ))
    (h0 : st.scheduled = [])
    (hns : noStallB st (chunks.map fun p => (p.1, some p.2)) = true) :
    gaplessB (runSched st (chunks.map fun p => (p.1, some p.2))).scheduled = true :=
  (sched_invariant _ st (by rw [h0]; rfl) (by rw [tightB, h0]; rfl) hns).1

/-- C1 witness: three chunks of durations 1, 1/2, 2 arriving back-to-back
(at clock times 0, 1/5, 9/10, each before the previous buffer ends). -/
theorem gapless_scheduling_witness :
    (activeState.scheduled = [] ∧
      noStallB activeState
        ([((0:ℚ), (1:ℚ)), (1/5, 1/2), (9/10, 2)].map fun p => (p.1, some p.2)) = true) ∧
    gaplessB (runSched activeState
      ([((0:ℚ), (1:ℚ)), (1/5, 1/2), (9/10, 2)].map fun p => (p.1, some p.2))).scheduled = true := by
  refine ⟨⟨rfl, ?_⟩, gapless_scheduling activeState _ rfl ?_⟩ <;>
    norm_num [noStallB, playAudio, activeState]

/-- Spec §8 scenario: three chunks of durations 1.0, 0.5, 2.0 arriving
back-to-back with the cursor starting at 0 are scheduled at 0.0, 1.0, 1.5
and the cursor ends at 3.5. -/
theorem scenario_back_to_back :
    (runSched activeState
      ([((0:ℚ), (1:ℚ)), (1/5, 1/2), (9/10, 2)].map fun p => (p.1, some p.2))).scheduled
        = [(0, 1), (1, 1/2), (3/2, 2)] ∧
    (runSched activeState
      ([((0:ℚ), (1:ℚ)), (1/5, 1/2), (9/10, 2)].map fun p => (p.1, some p.2))).nextStartTime
        = 7/2 := by
  norm_num [runSched, playAudio, activeState]

/-- C2: the scheduler never schedules a buffer to start before the output
clock's present instant: within an invocation of `playAudio` the start
time passed to `source.start` is `max nextStartTime now`, which is at or
after the clock value `now` observed in that invocation (the handler is
atomic per §5 of the spec). -/
theorem never_schedule_past (st : LiveState) (now d : ℚ)
    (hctx : st.outputCtx.isSome = true) :
    (playAudio st now (some d)).scheduled =
      st.scheduled ++ [(max st.nextStartTime now, d)] ∧
    now ≤ max st.nextStartTime now := by
  match hc : st.outputCtx with
  | none => rw [hc] at hctx; simp at hctx
  | some b => exact ⟨by rw [playAudio, hc], le_max_right _ _⟩

/-- C2 witness: a chunk arriving at clock time 6 after the only scheduled
buffer finished at 1 is scheduled at `max 1 6` (at or after 6). -/
theorem never_schedule_past_witness :
    stallState.outputCtx.isSome = true ∧
    ((playAudio stallState 6 (some 1)).scheduled =
        stallState.scheduled ++ [(max stallState.nextStartTime 6, 1)] ∧
      (6:ℚ) ≤ max stallState.nextStartTime 6) :=
  ⟨rfl, never_schedule_past stallState 6 1 rfl⟩

/-- Spec §8 scenario: after a 1-second chunk plays out and 5 seconds of
silence pass, the chunk arriving at output time 6.0 starts at 6.0, not
1.0. -/
theorem scenario_resync_after_stall :
    (playAudio stallState 6 (some 1)).scheduled = [(0, 1), (6, 1)] := by
  norm_num [playAudio, stallState]

/-- C3: Playback cursor invariant — an invocation of `playAudio` on an
initialized output context with a non-negatively sized decode result
never decreases `nextStartTime`, and never leaves it below the clock
value `now` observed at the resync step.  (When the output-context guard
fails the function returns without touching the cursor at all.) -/
theorem cursor_monotone (st : LiveState) (now : ℚ) (dec : Option ℚ)
    (hctx : st.outputCtx.isSome = true) (hd : 0 ≤ dec.getD 0) :
    st.nextStartTime ≤ (playAudio st now dec).nextStartTime ∧
    now ≤ (playAudio st now dec).nextStartTime := by
  match hc : st.outputCtx, dec with
  | none, _ => rw [hc] at hctx; simp at hctx
  | some b, none =>
    rw [playAudio, hc]
    exact ⟨le_max_left _ _, le_max_right _ _⟩
  | some b, some d =>
    have h0 : 0 ≤ d := by simpa using hd
    rw [playAudio, hc]
    constructor
    · calc st.nextStartTime ≤ max st.nextStartTime now := le_max_left _ _
        _ ≤ max st.nextStartTime now + d := by linarith
    · calc now ≤ max st.nextStartTime now := le_max_right _ _
        _ ≤ max st.nextStartTime now + d := by linarith

/-- C3 witness: the cursor at 1 advances to `max 1 6 + 2 = 8 ≥ 6 ≥ 1` on a
chunk of duration 2 arriving at clock time 6. -/
theorem cursor_monotone_witness :
    (stallState.outputCtx.isSome = true ∧ (0:ℚ) ≤ (Option.some (2:ℚ)).getD 0) ∧
    (stallState.nextStartTime ≤ (playAudio stallState 6 (some 2)).nextStartTime ∧
      (6:ℚ) ≤ (playAudio stallState 6 (some 2)).nextStartTime) :=
  ⟨⟨rfl, by norm_num⟩, cursor_monotone stallState 6 (some 2) rfl (by norm_num)⟩

/-- C4 counterexample: a decode failure does not leave the cursor at the
value it held after the last successful advance — the resync write runs
before the decode, so a failure at clock time 5 moves the cursor of a
fresh session from 0 to 5. -/
theorem decode_failure_moves_cursor :
    (playAudio activeState 5 none).nextStartTime = 5 ∧
    activeState.nextStartTime = 0 ∧ (5:ℚ) ≠ 0 := by
  norm_num [playAudio, activeState]

/-- C4 amended: when the decode of a chunk fails, the chunk is skipped
(nothing is scheduled), the session is not torn down, and any later chunk
is handled exactly as if the failed one had never arrived (the clock
being non-decreasing); the cursor however is left at
`max nextStartTime now` — the pre-decode resync write — rather than at
the value after the last successful advance. -/
theorem decode_failure_contained (st : LiveState) (now now2 : ℚ) (dec : Option ℚ)
    (hctx : st.outputCtx.isSome = true) (hclock : now ≤ now2) :
    (playAudio st now none).scheduled = st.scheduled ∧
    (playAudio st now none).nextStartTime = max st.nextStartTime now ∧
    playAudio (playAudio st now none) now2 dec = playAudio st now2 dec := by
  match hc : st.outputCtx with
  | none => rw [hc] at hctx; simp at hctx
  | some b =>
    have hst : playAudio st now none =
        { st with nextStartTime := max st.nextStartTime now } := by
      rw [playAudio, hc]
    refine ⟨by rw [hst], by rw [hst], ?_⟩
    rw [hst]
    have hmax : max (max st.nextStartTime now) now2 = max st.nextStartTime now2 := by
      rw [max_assoc, max_eq_right hclock]
    match dec with
    | none =>
      rw [playAudio, playAudio]
      simp only [hc]
      simp [hmax]
    | some d =>
      rw [playAudio, playAudio]
      simp only [hc]
      simp [hmax]

/-- C4 witness: a failed decode at clock time 5 on a fresh session
schedules nothing, bumps the cursor to `max 0 5`, and leaves the handling
of the next chunk (at clock time 6) unchanged. -/
theorem decode_failure_contained_witness :
    (activeState.outputCtx.isSome = true ∧ (5:ℚ) ≤ 6) ∧
    ((playAudio activeState 5 none).scheduled = activeState.scheduled ∧
      (playAudio activeState 5 none).nextStartTime = max activeState.nextStartTime 5 ∧
      playAudio (playAudio activeState 5 none) 6 (some 1) = playAudio activeState 6 (some 1)) :=
  ⟨⟨rfl, by norm_num⟩, decode_failure_contained activeState 5 6 (some 1) rfl (by norm_num)⟩

/-! ## Teardown lemmas -/

theorem count_const_map {α : Type} (l : List α) (e : TearEv) :
    ((l.map fun _ => e).count e) = l.length := by
  induction l with
  | nil => rfl
  | cons a t ih => simp [List.count_cons, ih]

theorem count_const_map_ne {α : Type} (l : List α) (e e2 : TearEv) (h : e ≠ e2) :
    ((l.map fun _ => e).count e2) = 0 := by
  induction l with
  | nil => rfl
  | cons a t ih => simp [List.count_cons, List.count_replicate, ih, h]

theorem filter_id_map_false {α : Type} (ts : List α) :
    ((ts.map fun _ => false).filter id) = [] := by
  induction ts with
  | nil => rfl
  | cons a t ih => simp [ih]

/-- C5 counterexample: `stopSession` never releases the remote session —
`LiveSession.disconnect` has an empty body, so even on a fully active
session no session-close is ever issued (neither on the first nor the
second call) and the remote connection stays open. -/
theorem stop_never_closes_remote :
    ((stopSession activeState).2.count TearEv.sessionClosed = 0) ∧
    ((stopSession activeState).1.session = some true) ∧
    (((stopSession (stopSession activeState).1).2.count TearEv.sessionClosed) = 0) := by
  refine ⟨?_, ?_, ?_⟩ <;>
    simp [stopSession, activeState, List.count_append, List.count_cons]

/-- C5 amended: calling `stopSession` twice in a row, from any state
(including partial setup), issues no call on a null ref and never throws
synchronously; the microphone tracks, processor node, and both audio
contexts are released exactly once (the second context close only yields
a rejected promise that the code ignores, recorded as `closeRejected`);
the remote session, however, is never closed, `disconnect` being a
no-op. -/
theorem idempotent_teardown (st : LiveState) :
    (((stopSession st).2 ++ (stopSession (stopSession st).1).2).count TearEv.inputCtxClosed
        = (if st.inputCtx = some true then 1 else 0)) ∧
    (((stopSession st).2 ++ (stopSession (stopSession st).1).2).count TearEv.outputCtxClosed
        = (if st.outputCtx = some true then 1 else 0)) ∧
    (((stopSession st).2 ++ (stopSession (stopSession st).1).2).count TearEv.procDisconnected
        = (if st.processor = some true then 1 else 0)) ∧
    (((stopSession st).2 ++ (stopSession (stopSession st).1).2).count TearEv.trackStopped
        = (match st.stream with | none => 0 | some ts => (ts.filter id).length)) ∧
    (((stopSession st).2 ++ (stopSession (stopSession st).1).2).count TearEv.sessionClosed = 0) ∧
    ((stopSession (stopSession st).1).1.session = st.session) := by
  obtain ⟨stream, proc, inCtx, outCtx, sess, ns, sched⟩ := st
  rcases stream with _ | ts <;> rcases proc with _ | (_ | _) <;>
    rcases inCtx with _ | (_ | _) <;> rcases outCtx with _ | (_ | _) <;>
    simp [stopSession, List.count_append, List.count_cons, List.count_replicate,
      count_const_map, count_const_map_ne, filter_id_map_false]

/-- C6: a decode completing after teardown is NOT discarded — `stopSession`
closes the output context but never clears `outputCtxRef`, and `playAudio`
checks only that the ref is non-null (there is no session-active flag), so
the stale buffer is passed to `source.start` on the closed context. -/
theorem stale_decode_scheduled :
    ((stopSession activeState).1.outputCtx = some false) ∧
    ((stopSession activeState).1.outputCtx.isSome = true) ∧
    ((playAudio (stopSession activeState).1 7 (some 1)).scheduled = [(7, 1)]) := by
  refine ⟨?_, ?_, ?_⟩ <;> norm_num [stopSession, activeState, playAudio]

/-- C7: Outbound order preservation — with a connected session, the frames
passed to `sendAudio` produce exactly one `sendRealtimeInput` payload
each, appended in capture order: the transport trace is the capture list
mapped through the encoder, so no frame is reordered or retransmitted. -/
theorem outbound_order_preserved : ∀ (frames : List (List ℚ)) (s : GSession),
    s.sessionPromise = some () →
    (runSend s frames).sent = s.sent ++ frames.map encodeFrame
  | [], s, _ => by simp [runSend]
  | f :: fs, s, h => by
    rw [runSend]
    have hsend : sendAudio s f = { s with sent := s.sent ++ [encodeFrame f] } := by
      rw [sendAudio, h]
    rw [hsend, outbound_order_preserved fs _ (by simp [h])]
    simp

/-- C7 witness: two concrete frames are delivered as their two encodings,
in order. -/
theorem outbound_order_preserved_witness :
    ((GSession.mk (some ()) []).sessionPromise = some ()) ∧
    ((runSend (GSession.mk (some ()) []) [[1/2], [0]]).sent =
      (GSession.mk (some ()) []).sent ++ ([[(1:ℚ)/2], [0]].map encodeFrame)) :=
  ⟨rfl, outbound_order_preserved [[1/2], [0]] (GSession.mk (some ()) []) rfl⟩

/-- C9: `LiveSession.disconnect` is a no-op — it changes no session state
and issues no close command to the remote connection; the `onClose`
callback is invoked exactly by the remote-initiated `onclose` event and by
nothing else. -/
theorem disconnect_noop (s : GSession) (ev : RemoteEv) :
    disconnect s = (s, []) ∧
    ((handleRemoteEv ev).contains CbInvocation.onCloseCb = (ev == RemoteEv.closed)) := by
  constructor
  · match h : s.sessionPromise with
    | some _ => rw [disconnect, h]
    | none => rw [disconnect, h]
  · match ev with
    | .message (some d) => rfl
    | .message none => rfl
    | .closed => rfl
    | .errored => rfl

/-- C10: a frame passed to `sendAudio` before `connect` (null
`sessionPromise`) is silently dropped: the function returns immediately,
nothing is encoded or transmitted, no error is raised, and the state is
unchanged. -/
theorem send_before_connect_dropped (s : GSession) (frame : List ℚ)
    (h : s.sessionPromise = none) : sendAudio s frame = s := by
  rw [sendAudio, h]

/-- C10 witness: sending on a never-connected session leaves it exactly as
it was. -/
theorem send_before_connect_dropped_witness :
    ((GSession.mk none []).sessionPromise = none) ∧
    (sendAudio (GSession.mk none []) [0] = GSession.mk none []) :=
  ⟨rfl, send_before_connect_dropped (GSession.mk none []) [0] rfl⟩

end OmniAI
